import Mathlib

set_option linter.unusedVariables false

/-!
Verification of the storage-pond state-space model (pond_model_eqns.py).

The module defines a dynamics function f(t, x, u, params), a measurement
function g(t, x, u, params), a default parameter dictionary, an operating
point, and a self-test routine run at import time.  State and input
vectors are numeric sequences, modelled here as lists of reals.  The
source is dynamically typed: f returns a bare scalar while g returns a
list slice, so results are modelled by a sum type PyVal.  The assertion
guard in f and the possible index error on empty sequences are modelled
by an Except result.
-/

namespace Pond

/-- A Python value returned by one of the model functions: either a bare
real scalar or a list of reals. -/
inductive PyVal where
  | scalar (r : ℝ)
  | list (l : List ℝ)

/-- True exactly on list-shaped values. -/
def PyVal.isList : PyVal → Bool
  | .list _ => true
  | .scalar _ => false

/-- The parameter dictionary: keys weir_height, c and weir_width. -/
structure Params where
  weir_height : ℝ
  c : ℝ
  weir_width : ℝ

/-- The scalar rate expression returned by f:
c * (q - 3.33 * (b - 0.2 * h) * h ** 1.5) / (h + d) ** 2. -/
noncomputable def rate (h q d c b : ℝ) : ℝ :=
  c * (q - 3.33 * (b - 0.2 * h) * h ^ (1.5 : ℝ)) / (h + d) ^ 2

/-- Dynamics function f(t, x, u, params).  It reads h = x[0] and
q = u[0] (an index error when either sequence is empty), asserts
h < 0.33 * weir_width with message "Out of bounds", and returns the
scalar rate.  The time argument t is accepted but unused. -/
noncomputable def f (t : ℝ) (x u : List ℝ) (params : Params) :
    Except String PyVal :=
  match x, u with
  | h :: _, q :: _ =>
    if h < 0.33 * params.weir_width then
      .ok (.scalar (rate h q params.weir_height params.c params.weir_width))
    else
      .error "Out of bounds"
  | _, _ => .error "IndexError"

/-- Measurement function g(t, x, u, params): returns the slice x[0:1]. -/
def g (t : ℝ) (x u : List ℝ) (params : Params) : PyVal :=
  .list (x.take 1)

/-- Inclination of pond walls from vertical, in degrees. -/
noncomputable def alpha : ℝ := 10

/-- Degrees to radians, as np.deg2rad. -/
noncomputable def deg2rad (x : ℝ) : ℝ := x * (Real.pi / 180)

/-- Default system parameters: weir_height 5, c = tan(deg2rad(alpha))^2 / pi,
weir_width 2. -/
noncomputable def params : Params :=
  ⟨5, Real.tan (deg2rad alpha) ^ 2 / Real.pi, 2⟩

/-- Normal operating point, input. -/
noncomputable def u_nop : List ℝ := [1]

/-- Normal operating point, state. -/
noncomputable def x_nop : List ℝ := [0.28805]

/-- The self-test routine executed at module load.  Each conjunct is one
assertion of run_tests, in source order.  The last conjunct mirrors the
source line that sets the weir_width entry of the copied dictionary to
weir_height + 0.1. -/
def run_tests : Prop :=
  f 0 [0] [0] params = Except.ok (PyVal.scalar 0)
  ∧ f 110 [0] [0] params = Except.ok (PyVal.scalar 0)
  ∧ f 0 [0.34 * params.weir_width] [0] params = Except.error "Out of bounds"
  ∧ (∃ r : ℝ, f 10 x_nop u_nop params = Except.ok (PyVal.scalar r) ∧ r < 1e-6)
  ∧ g 10 x_nop u_nop params = PyVal.list x_nop
  ∧ f 10 x_nop u_nop params
      ≠ f 10 x_nop u_nop ⟨params.weir_height, params.c + 0.001, params.weir_width⟩
  ∧ f 10 x_nop u_nop params
      ≠ f 10 x_nop u_nop ⟨params.weir_height + 0.01, params.c, params.weir_width⟩
  ∧ f 10 x_nop u_nop params
      ≠ f 10 x_nop u_nop ⟨params.weir_height, params.c, params.weir_height + 0.1⟩

/-! Basic evaluation lemmas. -/

lemma params_weir_height : params.weir_height = 5 := rfl

lemma params_weir_width : params.weir_width = 2 := rfl

lemma params_c : params.c = Real.tan (Real.pi / 18) ^ 2 / Real.pi := by
  show Real.tan (deg2rad alpha) ^ 2 / Real.pi = _
  have h : deg2rad alpha = Real.pi / 18 := by
    unfold deg2rad alpha; ring
  rw [h]

lemma f_cons (t h q : ℝ) (xs us : List ℝ) (p : Params) :
    f t (h :: xs) (q :: us) p =
      if h < 0.33 * p.weir_width then
        Except.ok (PyVal.scalar (rate h q p.weir_height p.c p.weir_width))
      else
        Except.error "Out of bounds" := rfl

lemma f_cons_pos {h : ℝ} {p : Params} (t q : ℝ) (xs us : List ℝ)
    (hlt : h < 0.33 * p.weir_width) :
    f t (h :: xs) (q :: us) p =
      Except.ok (PyVal.scalar (rate h q p.weir_height p.c p.weir_width)) := by
  rw [f_cons, if_pos hlt]

lemma f_cons_neg {h : ℝ} {p : Params} (t q : ℝ) (xs us : List ℝ)
    (hge : ¬ h < 0.33 * p.weir_width) :
    f t (h :: xs) (q :: us) p = Except.error "Out of bounds" := by
  rw [f_cons, if_neg hge]

/-- For a nonnegative base, the real power 1.5 is multiplication by the
square root. -/
lemma rpow_three_halves {x : ℝ} (hx : 0 ≤ x) :
    x ^ (1.5 : ℝ) = x * Real.sqrt x := by
  rcases hx.eq_or_lt with h | h
  · rw [← h, Real.sqrt_zero, mul_zero, Real.zero_rpow (by norm_num)]
  · have h15 : (1.5 : ℝ) = 1 + 1 / 2 := by norm_num
    rw [h15, Real.rpow_add h, Real.rpow_one, ← Real.sqrt_eq_rpow]

lemma rate_zero (d c b : ℝ) : rate 0 0 d c b = 0 := by
  unfold rate
  rw [Real.zero_rpow (by norm_num)]
  simp

/-! Numeric bounds at the operating point. -/

lemma sqrt_nop_gt : 0.5367 < Real.sqrt 0.28805 :=
  (Real.lt_sqrt (by norm_num)).mpr (by norm_num)

lemma sqrt_nop_lt : Real.sqrt 0.28805 < 0.53671 :=
  (Real.sqrt_lt' (by norm_num)).mpr (by norm_num)

lemma hpow_nop_bounds :
    0.154596 < (0.28805 : ℝ) ^ (1.5 : ℝ)
    ∧ (0.28805 : ℝ) ^ (1.5 : ℝ) < 0.1546 := by
  rw [rpow_three_halves (by norm_num)]
  constructor
  · nlinarith [sqrt_nop_gt]
  · nlinarith [sqrt_nop_lt]

/-- The parenthesised expression in the rate at the operating point is a
small positive number, bounded between 1e-5 and 5e-5. -/
lemma expr_nop_bounds :
    1e-5 < 1 - 3.33 * (2 - 0.2 * 0.28805) * ((0.28805 : ℝ) ^ (1.5 : ℝ))
    ∧ 1 - 3.33 * (2 - 0.2 * 0.28805) * ((0.28805 : ℝ) ^ (1.5 : ℝ)) < 5e-5 := by
  have h := hpow_nop_bounds
  constructor
  · nlinarith [h.2]
  · nlinarith [h.1]

lemma pi_div_18_pos : (0 : ℝ) < Real.pi / 18 := by
  linarith [Real.pi_pos]

lemma tan_pi_div_18_pos : 0 < Real.tan (Real.pi / 18) := by
  apply Real.tan_pos_of_pos_of_lt_pi_div_two pi_div_18_pos
  linarith [Real.pi_pos]

lemma tan_pi_div_18_lt : Real.tan (Real.pi / 18) < 0.17725 := by
  have hx : (0 : ℝ) < Real.pi / 18 := pi_div_18_pos
  have hxu : Real.pi / 18 < 0.174533 := by
    have := Real.pi_lt_d6
    linarith
  have hsin : Real.sin (Real.pi / 18) < 0.174533 :=
    lt_trans (Real.sin_lt hx) hxu
  have hcos : (0.9847 : ℝ) < Real.cos (Real.pi / 18) := by
    have h := Real.one_sub_sq_div_two_lt_cos (x := Real.pi / 18) hx.ne'
    nlinarith
  rw [Real.tan_eq_sin_div_cos, div_lt_iff₀ (by linarith)]
  nlinarith

lemma c_pos : 0 < params.c := by
  rw [params_c]
  exact div_pos (pow_pos tan_pi_div_18_pos 2) Real.pi_pos

lemma c_lt : params.c < 0.011 := by
  rw [params_c, div_lt_iff₀ Real.pi_pos]
  have h1 : Real.tan (Real.pi / 18) ^ 2 < 0.17725 ^ 2 := by
    nlinarith [tan_pi_div_18_pos, tan_pi_div_18_lt]
  nlinarith [Real.pi_gt_d6]

/-- The rate at the operating point with default parameters is strictly
positive and below 1e-6. -/
lemma rate_nop_bounds :
    0 < rate 0.28805 1 5 params.c 2 ∧ rate 0.28805 1 5 params.c 2 < 1e-6 := by
  have hE := expr_nop_bounds
  have hc0 := c_pos
  have hc1 := c_lt
  unfold rate
  constructor
  · apply div_pos (mul_pos hc0 (by nlinarith [hE.1])) (by norm_num)
  · rw [div_lt_iff₀ (by norm_num : (0 : ℝ) < ((0.28805 : ℝ) + 5) ^ 2)]
    nlinarith [hE.1, hE.2]

lemma hpow_nop_pos : 0 < (0.28805 : ℝ) ^ (1.5 : ℝ) :=
  Real.rpow_pos_of_pos (by norm_num) _

lemma expr_nop_pos :
    0 < 1 - 3.33 * (2 - 0.2 * 0.28805) * ((0.28805 : ℝ) ^ (1.5 : ℝ)) :=
  lt_trans (by norm_num) expr_nop_bounds.1

/-! Sensitivity of the rate to each parameter, at the operating point. -/

lemma rate_c_ne {c2 : ℝ} (hne : c2 ≠ params.c) :
    rate 0.28805 1 5 c2 2 ≠ rate 0.28805 1 5 params.c 2 := by
  unfold rate
  intro heq
  have hEne := ne_of_gt expr_nop_pos
  field_simp at heq
  rcases heq with h | h
  · exact hne h
  · exact hEne h

lemma rate_d_ne {d2 : ℝ} (h0 : 0 < d2) (hne : d2 ≠ 5) :
    rate 0.28805 1 d2 params.c 2 ≠ rate 0.28805 1 5 params.c 2 := by
  unfold rate
  have hC : 0 < params.c * (1 - 3.33 * (2 - 0.2 * 0.28805) * ((0.28805 : ℝ) ^ (1.5 : ℝ))) :=
    mul_pos c_pos expr_nop_pos
  rcases lt_or_gt_of_ne hne with hlt | hgt
  · apply ne_of_gt
    apply div_lt_div_of_pos_left hC (by positivity)
    nlinarith
  · apply ne_of_lt
    apply div_lt_div_of_pos_left hC (by norm_num)
    nlinarith

lemma rate_b_ne {b2 : ℝ} (hne : b2 ≠ 2) :
    rate 0.28805 1 5 params.c b2 ≠ rate 0.28805 1 5 params.c 2 := by
  unfold rate
  intro heq
  field_simp at heq
  rcases heq with ((h | h) | h) | h
  · exact hne h
  · norm_num at h
  · norm_num at h
  · exact (ne_of_gt c_pos) h

/-! Evaluation of f at the operating point. -/

lemma f_nop_eval (t : ℝ) (p : Params) (hb : (0.28805 : ℝ) < 0.33 * p.weir_width) :
    f t x_nop u_nop p
      = Except.ok (PyVal.scalar (rate 0.28805 1 p.weir_height p.c p.weir_width)) := by
  show f t (0.28805 :: []) (1 :: []) p = _
  exact f_cons_pos t 1 [] [] hb

lemma f_nop_default_eval (t : ℝ) :
    f t x_nop u_nop params = Except.ok (PyVal.scalar (rate 0.28805 1 5 params.c 2)) :=
  f_nop_eval t params (by norm_num : (0.28805 : ℝ) < 0.33 * 2)

lemma ok_scalar_ne {a b : ℝ} (hab : a ≠ b) :
    (Except.ok (PyVal.scalar a) : Except String PyVal) ≠ Except.ok (PyVal.scalar b) := by
  intro hh
  simp only [Except.ok.injEq, PyVal.scalar.injEq] at hh
  exact hab hh

lemma f_nop_c_ne (t c2 : ℝ) (hne : c2 ≠ params.c) :
    f t x_nop u_nop ⟨params.weir_height, c2, params.weir_width⟩
      ≠ f t x_nop u_nop params := by
  have e1 : f t x_nop u_nop ⟨params.weir_height, c2, params.weir_width⟩
      = Except.ok (PyVal.scalar (rate 0.28805 1 5 c2 2)) :=
    f_nop_eval t _ (by norm_num : (0.28805 : ℝ) < 0.33 * 2)
  rw [e1, f_nop_default_eval]
  exact ok_scalar_ne (rate_c_ne hne)

lemma f_nop_d_ne (t d2 : ℝ) (h0 : 0 < d2) (hne : d2 ≠ 5) :
    f t x_nop u_nop ⟨d2, params.c, params.weir_width⟩
      ≠ f t x_nop u_nop params := by
  have e1 : f t x_nop u_nop ⟨d2, params.c, params.weir_width⟩
      = Except.ok (PyVal.scalar (rate 0.28805 1 d2 params.c 2)) :=
    f_nop_eval t _ (by norm_num : (0.28805 : ℝ) < 0.33 * 2)
  rw [e1, f_nop_default_eval]
  exact ok_scalar_ne (rate_d_ne h0 hne)

lemma f_nop_b_ne (t b2 : ℝ) (hne : b2 ≠ 2) :
    f t x_nop u_nop ⟨params.weir_height, params.c, b2⟩
      ≠ f t x_nop u_nop params := by
  by_cases hb : (0.28805 : ℝ) < 0.33 * b2
  · have e1 : f t x_nop u_nop ⟨params.weir_height, params.c, b2⟩
        = Except.ok (PyVal.scalar (rate 0.28805 1 5 params.c b2)) :=
      f_nop_eval t _ hb
    rw [e1, f_nop_default_eval]
    exact ok_scalar_ne (rate_b_ne hne)
  · have e1 : f t x_nop u_nop ⟨params.weir_height, params.c, b2⟩
        = Except.error "Out of bounds" := by
      show f t (0.28805 :: []) (1 :: []) _ = _
      exact f_cons_neg t 1 [] [] hb
    rw [e1, f_nop_default_eval]
    exact fun hh => Except.noConfusion hh

/-! Claim theorems. -/

/-- C1 (amended): the dynamics function signals the out-of-bounds error
exactly when the first component x[0] of the state vector is not strictly
less than 0.33 * weir_width; components beyond index 0 are not checked.
For any parameter set with positive weir_width and any input, a state
with first component 0.34 * weir_width raises the error and one with
first component 0.32 * weir_width does not; the violating state is never
clamped, the call simply fails. -/
theorem f_bounds_guard_first_component :
    ∀ (t : ℝ) (p : Params) (h q : ℝ) (xs us : List ℝ),
      ((f t (h :: xs) (q :: us) p = Except.error "Out of bounds")
        ↔ ¬ h < 0.33 * p.weir_width)
      ∧ (0 < p.weir_width →
          f t [0.34 * p.weir_width] (q :: us) p = Except.error "Out of bounds"
          ∧ f t [0.32 * p.weir_width] (q :: us) p
              = Except.ok (PyVal.scalar
                  (rate (0.32 * p.weir_width) q p.weir_height p.c p.weir_width))) := by
  intro t p h q xs us
  refine ⟨?_, fun hw => ⟨?_, ?_⟩⟩
  · rw [f_cons]
    split_ifs with hlt
    · simp [hlt]
    · simp [hlt]
  · exact f_cons_neg t q [] [] (by intro hcon; nlinarith)
  · exact f_cons_pos t q [] [] (by nlinarith)

/-- C1 witness: with weir_height 5, c 1, weir_width 2, the state 0.34 * 2
raises the out-of-bounds error and the state 0.32 * 2 returns a rate. -/
theorem f_bounds_guard_first_component_witness :
    f 0 [(0.34 : ℝ) * 2] [0] (⟨5, 1, 2⟩ : Params) = Except.error "Out of bounds"
    ∧ f 0 [(0.32 : ℝ) * 2] [0] (⟨5, 1, 2⟩ : Params)
        = Except.ok (PyVal.scalar (rate ((0.32 : ℝ) * 2) 0 5 1 2)) :=
  (f_bounds_guard_first_component 0 ⟨5, 1, 2⟩ 0 0 [] []).2
    (by norm_num : (0 : ℝ) < 2)

/-- C1 counterexample: a two-component state whose second component 0.68
violates the 0.33 * weir_width bound of the default parameters is accepted
without error, because the guard only examines x[0]. -/
theorem guard_ignores_second_component :
    ¬ ((0.68 : ℝ) < 0.33 * params.weir_width)
    ∧ f 0 [0.1, 0.68] [0] params
        = Except.ok (PyVal.scalar (rate 0.1 0 5 params.c 2)) := by
  constructor
  · rw [params_weir_width]; norm_num
  · exact f_cons_pos 0 0 [0.68] [] (by norm_num : (0.1 : ℝ) < 0.33 * 2)

/-- C2: for every time t and every parameter set with positive
weir_height, c and weir_width, the dynamics at zero state and zero input
is exactly zero: the origin is a fixed point of the model. -/
theorem f_zero_fixed_point :
    ∀ (t : ℝ) (p : Params), 0 < p.weir_height → 0 < p.c → 0 < p.weir_width →
      f t [0] [0] p = Except.ok (PyVal.scalar 0) := by
  intro t p hd hc hb
  have e := f_cons_pos (p := p) t 0 ([] : List ℝ) []
    (show (0 : ℝ) < 0.33 * p.weir_width by linarith)
  rw [e, rate_zero]

/-- C2 witness: the fixed-point equation holds at t = 0 for the parameter
set weir_height 5, c 1, weir_width 2. -/
theorem f_zero_fixed_point_witness :
    f 0 [0] [0] (⟨5, 1, 2⟩ : Params) = Except.ok (PyVal.scalar 0) :=
  f_zero_fixed_point 0 ⟨5, 1, 2⟩ (by norm_num : (0 : ℝ) < 5)
    (by norm_num : (0 : ℝ) < 1) (by norm_num : (0 : ℝ) < 2)

/-- C3: on every valid state vector, that is a length-1 sequence, the
measurement function is the identity: it returns a sequence equal to x,
for any t, u and params. -/
theorem g_identity_on_length_one :
    ∀ (t : ℝ) (x u : List ℝ) (p : Params),
      x.length = 1 → g t x u p = PyVal.list x := by
  intro t x u p hx
  rcases x with _ | ⟨a, _ | ⟨b, xs⟩⟩
  · simp at hx
  · rfl
  · simp at hx

/-- C3 witness: the measurement at the operating point state is that
state. -/
theorem g_identity_on_length_one_witness :
    g 0 [(0.28805 : ℝ)] [1] params = PyVal.list [(0.28805 : ℝ)] :=
  g_identity_on_length_one 0 [0.28805] [1] params rfl

/-- C4 counterexample: at state [0] and input [0] with the default
parameters, the dynamics function returns the bare scalar 0, not a
list-shaped value, so it does not return a length-1 sequence. -/
theorem f_returns_scalar_not_list :
    f 0 [(0 : ℝ)] [(0 : ℝ)] params = Except.ok (PyVal.scalar 0)
    ∧ PyVal.isList (PyVal.scalar 0) = false := by
  constructor
  · have e := f_cons_pos (p := params) 0 0 ([] : List ℝ) []
      (by norm_num : (0 : ℝ) < 0.33 * 2)
    rw [e, rate_zero]
  · rfl

/-- C4 (amended): on length-1 sequences, an in-bounds call of the
dynamics function returns a bare scalar real, not a sequence, while the
measurement function does return a sequence of the same length-1 shape
as x. -/
theorem f_scalar_g_list_shapes :
    ∀ (t h q : ℝ) (xs us x u : List ℝ) (p : Params),
      h < 0.33 * p.weir_width → x.length = 1 →
      f t (h :: xs) (q :: us) p
        = Except.ok (PyVal.scalar (rate h q p.weir_height p.c p.weir_width))
      ∧ PyVal.isList (PyVal.scalar (rate h q p.weir_height p.c p.weir_width)) = false
      ∧ g t x u p = PyVal.list (x.take 1)
      ∧ (x.take 1).length = x.length := by
  intro t h q xs us x u p hlt hx
  refine ⟨f_cons_pos t q xs us hlt, rfl, rfl, ?_⟩
  rw [List.length_take]
  omega

/-- C4 witness: shapes at the concrete call with state [0], input [0]
and parameter set weir_height 5, c 1, weir_width 2. -/
theorem f_scalar_g_list_shapes_witness :
    f 0 [(0 : ℝ)] [(0 : ℝ)] (⟨5, 1, 2⟩ : Params)
      = Except.ok (PyVal.scalar (rate 0 0 5 1 2))
    ∧ PyVal.isList (PyVal.scalar (rate 0 0 5 1 2)) = false
    ∧ g 0 [(7 : ℝ)] [(0 : ℝ)] (⟨5, 1, 2⟩ : Params) = PyVal.list ([(7 : ℝ)].take 1)
    ∧ ([(7 : ℝ)].take 1).length = [(7 : ℝ)].length :=
  f_scalar_g_list_shapes 0 0 0 [] [] [7] [0] ⟨5, 1, 2⟩
    (by norm_num : (0 : ℝ) < 0.33 * 2) rfl

/-- C5: for every t, the dynamics at the operating point x = [0.28805],
u = [1] with the default parameters returns a scalar of absolute
magnitude strictly below 1e-6. -/
theorem f_nop_magnitude_small :
    ∀ t : ℝ,
      f t x_nop u_nop params
        = Except.ok (PyVal.scalar (rate 0.28805 1 5 params.c 2))
      ∧ |rate 0.28805 1 5 params.c 2| < 1e-6 := by
  intro t
  refine ⟨f_nop_default_eval t, ?_⟩
  rw [abs_of_pos rate_nop_bounds.1]
  exact rate_nop_bounds.2

/-- C6: at the operating point with default parameters, changing any one
of c, weir_height (within positive values) or weir_width while holding
the other two fixed changes the result of the dynamics call: no
parameter is a no-op. -/
theorem param_sensitivity_nop :
    (∀ c2 : ℝ, c2 ≠ params.c →
        f 10 x_nop u_nop ⟨params.weir_height, c2, params.weir_width⟩
          ≠ f 10 x_nop u_nop params)
    ∧ (∀ d2 : ℝ, 0 < d2 → d2 ≠ params.weir_height →
        f 10 x_nop u_nop ⟨d2, params.c, params.weir_width⟩
          ≠ f 10 x_nop u_nop params)
    ∧ (∀ b2 : ℝ, b2 ≠ params.weir_width →
        f 10 x_nop u_nop ⟨params.weir_height, params.c, b2⟩
          ≠ f 10 x_nop u_nop params) :=
  ⟨fun c2 hc => f_nop_c_ne 10 c2 hc,
   fun d2 h0 hd => f_nop_d_ne 10 d2 h0 hd,
   fun b2 hb => f_nop_b_ne 10 b2 hb⟩

/-- C6 witness: the three concrete perturbations used by the self tests
each change the dynamics result at the operating point. -/
theorem param_sensitivity_nop_witness :
    f 10 x_nop u_nop ⟨params.weir_height, params.c + 0.001, params.weir_width⟩
      ≠ f 10 x_nop u_nop params
    ∧ f 10 x_nop u_nop ⟨params.weir_height + 0.01, params.c, params.weir_width⟩
      ≠ f 10 x_nop u_nop params
    ∧ f 10 x_nop u_nop ⟨params.weir_height, params.c, params.weir_height + 0.1⟩
      ≠ f 10 x_nop u_nop params :=
  ⟨param_sensitivity_nop.1 (params.c + 0.001) (by intro hcon; linarith),
   param_sensitivity_nop.2.1 (params.weir_height + 0.01)
     (by rw [params_weir_height]; norm_num)
     (by rw [params_weir_height]; intro hcon; norm_num at hcon),
   param_sensitivity_nop.2.2 (params.weir_height + 0.1)
     (by rw [params_weir_height, params_weir_width]; intro hcon; norm_num at hcon)⟩

/-- C7: the time argument has no influence: dynamics and measurement
return identical results, including identical error behaviour, for any
two times with the same state, input and parameters. -/
theorem time_invariance :
    ∀ (t1 t2 : ℝ) (x u : List ℝ) (p : Params),
      f t1 x u p = f t2 x u p ∧ g t1 x u p = g t2 x u p :=
  fun _ _ _ _ _ => ⟨rfl, rfl⟩

/-- C8: every assertion in the self-test routine holds: the zero fixed
point at t = 0 and t = 110, the bounds error at 0.34 * weir_width, the
near-zero rate at the operating point, the measurement identity there,
and the three parameter-perturbation inequalities. -/
theorem run_tests_pass : run_tests := by
  refine ⟨?_, ?_, ?_, ?_, ?_, ?_, ?_, ?_⟩
  · have e := f_cons_pos (p := params) 0 0 ([] : List ℝ) []
      (by norm_num : (0 : ℝ) < 0.33 * 2)
    rw [e, rate_zero]
  · have e := f_cons_pos (p := params) 110 0 ([] : List ℝ) []
      (by norm_num : (0 : ℝ) < 0.33 * 2)
    rw [e, rate_zero]
  · exact f_cons_neg 0 0 [] [] (by rw [params_weir_width]; norm_num)
  · exact ⟨rate 0.28805 1 5 params.c 2, f_nop_default_eval 10, rate_nop_bounds.2⟩
  · rfl
  · exact (f_nop_c_ne 10 (params.c + 0.001) (by intro hcon; linarith)).symm
  · exact (f_nop_d_ne 10 (params.weir_height + 0.01)
      (by rw [params_weir_height]; norm_num)
      (by rw [params_weir_height]; intro hcon; norm_num at hcon)).symm
  · exact (f_nop_b_ne 10 (params.weir_height + 0.1)
      (by rw [params_weir_height]; intro hcon; norm_num at hcon)).symm

/-- C9: the dynamics function depends only on the first components of the
state and input sequences: for any two states agreeing at index 0 and any
two inputs agreeing at index 0, the result, error behaviour included, is
identical. -/
theorem f_depends_only_on_first_components :
    ∀ (t : ℝ) (p : Params) (h q : ℝ) (xs ys us vs : List ℝ),
      f t (h :: xs) (q :: us) p = f t (h :: ys) (q :: vs) p :=
  fun _ _ _ _ _ _ _ _ => rfl

/-- C10: on any state sequence of length at least one, the measurement
function returns the length-1 truncation of x, which for states longer
than one element is a strictly shorter sequence, not equal to x. -/
theorem g_take_one_of_length_ge_one :
    ∀ (t : ℝ) (x u : List ℝ) (p : Params), 1 ≤ x.length →
      g t x u p = PyVal.list (x.take 1)
      ∧ (x.take 1).length = 1
      ∧ (1 < x.length → PyVal.list (x.take 1) ≠ PyVal.list x) := by
  intro t x u p hx
  refine ⟨rfl, ?_, ?_⟩
  · rw [List.length_take]
    omega
  · intro hgt heq
    simp only [PyVal.list.injEq] at heq
    have hlen := congrArg List.length heq
    rw [List.length_take] at hlen
    omega

/-- C10 witness: on the two-element state [1, 2] the measurement returns
the one-element truncation, which differs from the state. -/
theorem g_take_one_of_length_ge_one_witness :
    g 0 [(1 : ℝ), 2] [0] params = PyVal.list ([(1 : ℝ), 2].take 1)
    ∧ ([(1 : ℝ), 2].take 1).length = 1
    ∧ PyVal.list ([(1 : ℝ), 2].take 1) ≠ PyVal.list [(1 : ℝ), 2] := by
  obtain ⟨h1, h2, h3⟩ := g_take_one_of_length_ge_one 0 [1, 2] [0] params (by simp)
  exact ⟨h1, h2, h3 (by simp)⟩

end Pond
